import Mathlib

/-!
Verification development for the SQL-AI-agent repository.

The file shallowly embeds the response-to-SQL extraction pipeline
(`SQLAIAgent._extract_sql_from_response`) and the query orchestration
(`SQLAIAgent.query`) of `sql_ai_agent.py` as executable Lean functions
over `List Char` (the model of a Python `str`, ASCII scope).  External
collaborators (the language-model agent, the database driver) are
modelled as explicit parameters of `query`.
-/

namespace SqlAgent

/-- A Python string is modelled as a list of characters (ASCII scope). -/
abbrev Str := List Char

/-- The apostrophe character (U+0027). -/
def apos : Char := Char.ofNat 39

/-- The backtick character (U+0060). -/
def btick : Char := Char.ofNat 96

/-- Characters stripped by Python `str.strip()` / `str.rstrip()`
(default whitespace: space, tab, newline, carriage return, vertical
tab, form feed; ASCII scope). -/
def isPyWs (c : Char) : Bool :=
  c = ' ' || c = '\t' || c = '\n' || c = '\r' || c = Char.ofNat 11 || c = Char.ofNat 12

/-- Python `str.rstrip()`: drop trailing whitespace. -/
def pyRstrip (l : Str) : Str := (l.reverse.dropWhile isPyWs).reverse

/-- Python `str.strip()`: drop leading and trailing whitespace. -/
def pyStrip (l : Str) : Str := pyRstrip (l.dropWhile isPyWs)

/-- Python `str.upper()` (ASCII scope). -/
def pyUpper (l : Str) : Str := l.map Char.toUpper

/-- Python `s.endswith(c)` for a single character `c`. -/
def endsWithChar (c : Char) (l : Str) : Bool := l.getLast? == some c

/-- Python `s.split('\n')`: split on every newline, keeping empty
parts; the empty string yields one empty part. -/
def splitLines (l : Str) : List Str := l.splitOn '\n'

/-- Python `pat in s` (substring containment). -/
def containsSub (pat : Str) : Str → Bool
  | [] => pat.isPrefixOf []
  | c :: cs => pat.isPrefixOf (c :: cs) || containsSub pat cs

/-- Python `s.replace(' ', '').replace('\t', '')`. -/
def stripSpaceTab (l : Str) : Str := l.filter (fun c => !(c = ' ' || c = '\t'))

/-- Python `s.isalnum()`: non-empty and all characters alphanumeric
(ASCII scope). -/
def pyIsAlnum (l : Str) : Bool := !l.isEmpty && l.all Char.isAlphanum

/-- The SQL leading keywords of `_extract_sql_from_response`
(`sql_keywords`, line 247 of `sql_ai_agent.py`). -/
def sqlKeywords : List Str :=
  ["SELECT".data, "INSERT".data, "UPDATE".data, "DELETE".data,
   "WITH".data, "CREATE".data, "ALTER".data, "DROP".data]

/-- The SQL continuation keywords of `_extract_sql_from_response`
(line 259 of `sql_ai_agent.py`). -/
def contKeywords : List Str :=
  ["FROM".data, "WHERE".data, "JOIN".data, "GROUP BY".data,
   "ORDER BY".data, "HAVING".data, "UNION".data, "LIMIT".data]

/-- The SQL-looking punctuation characters of rule d
(line 262 of `sql_ai_agent.py`). -/
def sqlPunct : List Char := ['(', ')', ',', '=', '<', '>', apos, '"']

/-- `any(char in line_stripped for char in [...])` of line 262. -/
def hasSqlPunct (l : Str) : Bool := l.any (fun c => sqlPunct.contains c)

/-- Line 236: `line_stripped.startswith('```sql') or
line_stripped.startswith('```SQL')` applied to the stripped line. -/
def fenceOpenStripped (ls : Str) : Bool :=
  "```sql".data.isPrefixOf ls || "```SQL".data.isPrefixOf ls

/-- A line whose stripped form opens a fenced code block. -/
def isFenceOpen (l : Str) : Bool := fenceOpenStripped (pyStrip l)

/-- A line whose stripped form is exactly the closing fence marker. -/
def isFenceClose (l : Str) : Bool := pyStrip l == "```".data

/-- Line 248: the stripped, upper-cased line starts with a SQL leading
keyword. -/
def kwStartStripped (ls : Str) : Bool :=
  sqlKeywords.any (fun k => k.isPrefixOf (pyUpper ls))

/-- A line that enters bare-SQL mode (line 248 on the raw line). -/
def isKeywordLine (l : Str) : Bool := kwStartStripped (pyStrip l)

/-- Line 259: the stripped, upper-cased line contains a SQL
continuation keyword. -/
def hasContKw (ls : Str) : Bool :=
  contKeywords.any (fun k => containsSub k (pyUpper ls))

/-- Result of one iteration of the scanning loop of
`_extract_sql_from_response` (lines 232-266): either continue with the
updated state, or stop (Python `break`) with the final collected
lines. -/
inductive StepRes where
  | cont (inSql inCode : Bool) (acc : List Str) : StepRes
  | stop (acc : List Str) : StepRes
deriving DecidableEq, Repr

/-- One iteration of the `for line in lines` loop of
`_extract_sql_from_response` (lines 232-266 of `sql_ai_agent.py`),
with state `in_sql_block`, `in_code_block` and collected `sql_lines`. -/
def scanStep (inSql inCode : Bool) (acc : List Str) (line : Str) : StepRes :=
  let ls := pyStrip line
  if fenceOpenStripped ls then
    .cont inSql true acc
  else if ls == "```".data && inCode then
    .stop acc
  else if inCode then
    .cont inSql true (acc ++ [line])
  else if kwStartStripped ls then
    .cont true inCode (acc ++ [line])
  else if inSql then
    if endsWithChar ';' ls then
      .stop (acc ++ [line])
    else if ls.isEmpty || "--".data.isPrefixOf ls then
      .cont true inCode (acc ++ [line])
    else if hasContKw ls then
      .cont true inCode (acc ++ [line])
    else if !ls.isEmpty && !hasSqlPunct ls && !pyIsAlnum (stripSpaceTab ls) then
      .stop acc
    else
      .cont true inCode (acc ++ [line])
  else
    .cont inSql inCode acc

/-- The full scanning loop of `_extract_sql_from_response`
(lines 232-266), returning the collected `sql_lines`. -/
def scanLines : List Str → Bool → Bool → List Str → List Str
  | [], _, _, acc => acc
  | l :: rest, inSql, inCode, acc =>
    match scanStep inSql inCode acc l with
    | .cont inSql' inCode' acc' => scanLines rest inSql' inCode' acc'
    | .stop acc' => acc'

/-- The narrative prefixes removed at lines 273-283 of
`sql_ai_agent.py`, in source order. -/
def narrativePrefixes : List Str :=
  ["Here".data ++ [apos] ++ "s the SQL query:".data,
   "SQL Query:".data,
   "Query:".data,
   "The SQL query is:".data,
   "Let me run this query:".data]

/-- The prefix-removal loop of lines 281-283: for each known prefix in
order, if the current text starts with it, drop it and re-strip. -/
def stripPrefixes (s : Str) : Str :=
  narrativePrefixes.foldl
    (fun acc p => if p.isPrefixOf acc then pyStrip (acc.drop p.length) else acc) s

/-- Lines 286-287 of `sql_ai_agent.py`: if the query is non-empty and
does not already end with `;` after right-strip, append `;` to its
right-stripped form. -/
def ensureSemi (s : Str) : Str :=
  if !s.isEmpty && !(endsWithChar ';' (pyRstrip s)) then pyRstrip s ++ [';']
  else s

/-- Line 289 of `sql_ai_agent.py`:
`return sql_query if sql_query else None`. -/
def someIfNonempty (s : Str) : Option Str :=
  if s.isEmpty then none else some s

/-- The cleanup of lines 268-291 of `sql_ai_agent.py`: join the
collected lines, strip, remove narrative prefixes, ensure a trailing
semicolon, and return `none` when nothing remains. -/
def finalizeSql (sqlLines : List Str) : Option Str :=
  if sqlLines.isEmpty then none
  else someIfNonempty
    (ensureSemi (stripPrefixes (pyStrip (List.intercalate ['\n'] sqlLines))))

/-- `SQLAIAgent._extract_sql_from_response` (lines 223-295 of
`sql_ai_agent.py`): split the response into lines, run the two-mode
scan, and clean up the collected lines.  Total by construction; the
Python `except` branch (line 293) returning `None` is unreachable in
the model because every step is total. -/
def extractSql (response : Str) : Option Str :=
  finalizeSql (scanLines (splitLines response) false false [])

/-- Model of the pandas DataFrame built by `execute_raw_sql`
(line 111 of `sql_ai_agent.py`): driver-reported column names and the
fetched rows (cell values modelled as strings). -/
structure DataFrame where
  cols : List Str
  rows : List (List Str)
deriving DecidableEq, Repr

/-- pandas `df.empty`: true when either axis has length zero. -/
def DataFrame.isEmptyDf (df : DataFrame) : Bool :=
  df.rows.isEmpty || df.cols.isEmpty

/-- pandas `df.head(n)`: same columns, first `n` rows. -/
def DataFrame.headRows (df : DataFrame) (n : Nat) : DataFrame :=
  ⟨df.cols, df.rows.take n⟩

/-- Result of executing extracted SQL against the database collaborator
(`execute_raw_sql`, lines 106-115): a DataFrame, or the raised error's
description. -/
inductive ExecResult where
  | ok (df : DataFrame) : ExecResult
  | err (msg : Str) : ExecResult
deriving DecidableEq, Repr

/-- The result dictionary assembled by `SQLAIAgent.query`
(lines 176-221 of `sql_ai_agent.py`).  A missing dictionary key is
modelled as `none` (respectively `none` for the optional counts, which
are absent on the failure path and default to `0` on the success
path). -/
structure QueryOutcome where
  success : Bool
  user_question : Str
  agent_response : Option Str := none
  sql_query : Option Str := none
  data : Option DataFrame := none
  data_preview : Option DataFrame := none
  row_count : Option Nat := none
  column_count : Option Nat := none
  data_execution_error : Option Str := none
  error : Option Str := none
  timestamp : Str
deriving DecidableEq, Repr

/-- `SQLAIAgent.query` (lines 117-221 of `sql_ai_agent.py`).  The
external agent call is modelled by `agentResult` (its answer text, or
the description of the exception it raised) and the database
collaborator by `exec`; `ts` models `pd.Timestamp.now().isoformat()`. -/
def query (user_question : Str) (agentResult : Except Str Str)
    (exec : Str → ExecResult) (ts : Str) : QueryOutcome :=
  match agentResult with
  | .error e =>
      { success := false, user_question := user_question,
        error := some e, timestamp := ts }
  | .ok agent_output =>
      let sql_query := extractSql agent_output
      let base : QueryOutcome :=
        { success := true, user_question := user_question,
          agent_response := some agent_output, sql_query := sql_query,
          data := none, data_preview := none,
          row_count := some 0, column_count := some 0,
          timestamp := ts }
      match sql_query with
      | none => base
      | some q =>
        match exec q with
        | .ok df =>
            { base with
              data := some df,
              row_count := some df.rows.length,
              column_count := some (if !df.isEmptyDf then df.cols.length else 0),
              data_preview := some (if !df.isEmptyDf then df.headRows 10
                                    else ⟨[], []⟩) }
        | .err e => { base with data_execution_error := some e }

end SqlAgent


namespace SqlAgent

/-! Basic lemmas about the Python string primitives. -/

theorem dropWhile_prefix_eq_self {α : Type} {p : α → Bool} {l m : List α}
    (hm : m <+: l.dropWhile p) : m.dropWhile p = m := by
  cases m with
  | nil => simp
  | cons x xs =>
    have hx : p x = false := by
      have h := List.head?_dropWhile_not p l
      obtain ⟨t, ht⟩ := hm
      rw [← ht] at h
      simpa using h
    simp [List.dropWhile_cons, hx]

theorem dropWhile_idem {α : Type} (p : α → Bool) (l : List α) :
    (l.dropWhile p).dropWhile p = l.dropWhile p :=
  dropWhile_prefix_eq_self (List.prefix_refl _)

theorem pyRstrip_idem (l : Str) : pyRstrip (pyRstrip l) = pyRstrip l := by
  unfold pyRstrip
  rw [List.reverse_reverse, dropWhile_idem]

theorem pyRstrip_prefix_self (l : Str) : pyRstrip l <+: l := by
  have h : (l.reverse.dropWhile isPyWs).reverse <+: l.reverse.reverse :=
    List.reverse_prefix.mpr (List.dropWhile_suffix isPyWs)
  rwa [List.reverse_reverse] at h

theorem pyStrip_idem (l : Str) : pyStrip (pyStrip l) = pyStrip l := by
  unfold pyStrip
  rw [dropWhile_prefix_eq_self (pyRstrip_prefix_self (l.dropWhile isPyWs)),
    pyRstrip_idem]

theorem stripped_parts {s : Str} (h : pyStrip s = s) :
    s.dropWhile isPyWs = s ∧ pyRstrip s = s := by
  unfold pyStrip at h
  have hd : s.dropWhile isPyWs <:+ s := List.dropWhile_suffix isPyWs
  have hr : pyRstrip (s.dropWhile isPyWs) <+: s.dropWhile isPyWs :=
    pyRstrip_prefix_self _
  rw [h] at hr
  have hds : s.dropWhile isPyWs = s := hd.eq_of_length_le hr.length_le
  rw [hds] at h
  exact ⟨hds, h⟩

theorem pyRstrip_eq_self_of_getLast {l : Str} {c : Char}
    (hl : l.getLast? = some c) (hc : isPyWs c = false) : pyRstrip l = l := by
  unfold pyRstrip
  cases hrev : l.reverse with
  | nil =>
    have hnil : l = [] := by simpa using congrArg List.reverse hrev
    subst hnil; simp at hl
  | cons x xs =>
    have hx : x = c := by
      have h2 := List.head?_reverse l
      rw [hrev, hl] at h2
      simpa using h2
    rw [List.dropWhile_cons_of_neg (by simp [hx, hc]), ← hrev,
      List.reverse_reverse]

theorem pyStrip_append_of_stripped {s : Str} {c : Char}
    (h : pyStrip s = s) (hc : isPyWs c = false) :
    pyStrip (s ++ [c]) = s ++ [c] := by
  obtain ⟨hd, _⟩ := stripped_parts h
  unfold pyStrip
  rw [List.dropWhile_append, hd]
  cases s with
  | nil =>
    simp only [List.isEmpty_nil, if_true, List.nil_append]
    rw [List.dropWhile_cons_of_neg (by simp [hc])]
    exact pyRstrip_eq_self_of_getLast (by simp) hc
  | cons x xs =>
    simp only [List.isEmpty_cons, if_false]
    exact pyRstrip_eq_self_of_getLast (List.getLast?_concat _) hc

theorem stripPrefixes_stripped {s : Str} (h : pyStrip s = s) :
    pyStrip (stripPrefixes s) = stripPrefixes s := by
  unfold stripPrefixes
  generalize narrativePrefixes = ps
  induction ps generalizing s with
  | nil => simpa using h
  | cons p ps ih =>
    simp only [List.foldl_cons]
    by_cases hp : p.isPrefixOf s
    · rw [if_pos hp]; exact ih (pyStrip_idem _)
    · rw [if_neg hp]; exact ih h

theorem semi_not_ws : isPyWs ';' = false := by decide

theorem ensureSemi_shape {s : Str} (hs : pyStrip s = s) (hne : s ≠ []) :
    pyStrip (ensureSemi s) = ensureSemi s ∧ ensureSemi s ≠ [] ∧
      endsWithChar ';' (ensureSemi s) = true := by
  obtain ⟨_, hr⟩ := stripped_parts hs
  unfold ensureSemi
  by_cases hc : (!s.isEmpty && !(endsWithChar ';' (pyRstrip s))) = true
  · rw [if_pos hc, hr]
    refine ⟨pyStrip_append_of_stripped hs semi_not_ws, by simp, ?_⟩
    simp [endsWithChar, List.getLast?_concat]
  · rw [if_neg hc]
    rw [hr] at hc
    simp only [Bool.and_eq_true, Bool.not_eq_true', not_and] at hc
    have hsemi : endsWithChar ';' s = true := by
      have hne' : s.isEmpty = false := by simpa [List.isEmpty_iff] using hne
      cases h3 : endsWithChar ';' s with
      | false => exact absurd h3 (hc hne')
      | true => rfl
    exact ⟨hs, hne, hsemi⟩

theorem finalize_shape {lsl : List Str} {u : Str}
    (h : finalizeSql lsl = some u) :
    pyStrip u = u ∧ u ≠ [] ∧ endsWithChar ';' u = true := by
  unfold finalizeSql someIfNonempty at h
  split at h
  · exact absurd h (by simp)
  split at h
  · exact absurd h (by simp)
  rename_i hemp
  have hu : ensureSemi (stripPrefixes (pyStrip (List.intercalate ['\n'] lsl)))
      = u := Option.some.inj h
  have hs1s : pyStrip (stripPrefixes (pyStrip (List.intercalate ['\n'] lsl)))
      = stripPrefixes (pyStrip (List.intercalate ['\n'] lsl)) :=
    stripPrefixes_stripped (pyStrip_idem _)
  have hne : stripPrefixes (pyStrip (List.intercalate ['\n'] lsl)) ≠ [] := by
    intro h0
    apply hemp
    rw [h0]
    simp [ensureSemi]
  obtain ⟨h1, h2, h3⟩ := ensureSemi_shape hs1s hne
  rw [hu] at h1 h2 h3
  exact ⟨h1, h2, h3⟩

end SqlAgent

namespace SqlAgent

/-! Unfolding lemmas for `query` in each of its three terminal states. -/

theorem query_ok_none (uq out ts : Str) (exec : Str → ExecResult)
    (hq : extractSql out = none) :
    query uq (.ok out) exec ts =
      { success := true, user_question := uq, agent_response := some out,
        sql_query := none, data := none, data_preview := none,
        row_count := some 0, column_count := some 0,
        data_execution_error := none, error := none, timestamp := ts } := by
  simp only [query, hq]

theorem query_ok_err (uq out q e ts : Str) (exec : Str → ExecResult)
    (hq : extractSql out = some q) (he : exec q = .err e) :
    query uq (.ok out) exec ts =
      { success := true, user_question := uq, agent_response := some out,
        sql_query := some q, data := none, data_preview := none,
        row_count := some 0, column_count := some 0,
        data_execution_error := some e, error := none, timestamp := ts } := by
  simp only [query, hq, he]

theorem query_ok_exec (uq out q ts : Str) (exec : Str → ExecResult)
    (df : DataFrame) (hq : extractSql out = some q) (he : exec q = .ok df) :
    query uq (.ok out) exec ts =
      { success := true, user_question := uq, agent_response := some out,
        sql_query := some q, data := some df,
        data_preview := some (if !df.isEmptyDf then df.headRows 10 else ⟨[], []⟩),
        row_count := some df.rows.length,
        column_count := some (if !df.isEmptyDf then df.cols.length else 0),
        data_execution_error := none, error := none, timestamp := ts } := by
  simp only [query, hq, he]

end SqlAgent

namespace SqlAgent

/-- C3: when the agent call raises, `query` catches the exception and
returns an outcome with `success = false`, `error` set to the failure
description, `user_question` echoed verbatim and `timestamp` populated,
and no other fields (no `agent_response`, `sql_query`, `data`,
`data_preview`, `row_count`, `column_count` or `data_execution_error`). -/
theorem query_agent_failure_outcome (uq e ts : Str) (exec : Str → ExecResult) :
    (query uq (.error e) exec ts).success = false ∧
    (query uq (.error e) exec ts).error = some e ∧
    (query uq (.error e) exec ts).user_question = uq ∧
    (query uq (.error e) exec ts).timestamp = ts ∧
    (query uq (.error e) exec ts).agent_response = none ∧
    (query uq (.error e) exec ts).sql_query = none ∧
    (query uq (.error e) exec ts).data = none ∧
    (query uq (.error e) exec ts).data_preview = none ∧
    (query uq (.error e) exec ts).row_count = none ∧
    (query uq (.error e) exec ts).column_count = none ∧
    (query uq (.error e) exec ts).data_execution_error = none :=
  ⟨rfl, rfl, rfl, rfl, rfl, rfl, rfl, rfl, rfl, rfl, rfl⟩

/-- C2: when the agent answer succeeds, a SQL statement is extracted,
and executing it fails, the outcome still has `success = true`,
`data_execution_error` holds the failure description, and `data`,
`row_count`, `column_count` stay at their empty defaults. -/
theorem query_exec_error_partial_outcome (uq out q e ts : Str)
    (exec : Str → ExecResult)
    (hq : extractSql out = some q) (he : exec q = .err e) :
    (query uq (.ok out) exec ts).success = true ∧
    (query uq (.ok out) exec ts).data_execution_error = some e ∧
    (query uq (.ok out) exec ts).data = none ∧
    (query uq (.ok out) exec ts).row_count = some 0 ∧
    (query uq (.ok out) exec ts).column_count = some 0 ∧
    (query uq (.ok out) exec ts).sql_query = some q := by
  rw [query_ok_err uq out q e ts exec hq he]
  exact ⟨rfl, rfl, rfl, rfl, rfl, rfl⟩

/-- Witness for C2 at a concrete input: the agent answer `SELECT 1`,
whose extracted SQL `SELECT 1;` fails to execute. -/
theorem query_exec_error_partial_outcome_witness :
    (query "q".data (.ok "SELECT 1".data)
        (fun _ => .err "relation does not exist".data) "t".data).success = true ∧
    (query "q".data (.ok "SELECT 1".data)
        (fun _ => .err "relation does not exist".data) "t".data).data_execution_error
      = some "relation does not exist".data ∧
    (query "q".data (.ok "SELECT 1".data)
        (fun _ => .err "relation does not exist".data) "t".data).data = none ∧
    (query "q".data (.ok "SELECT 1".data)
        (fun _ => .err "relation does not exist".data) "t".data).row_count = some 0 ∧
    (query "q".data (.ok "SELECT 1".data)
        (fun _ => .err "relation does not exist".data) "t".data).column_count = some 0 ∧
    (query "q".data (.ok "SELECT 1".data)
        (fun _ => .err "relation does not exist".data) "t".data).sql_query
      = some "SELECT 1;".data :=
  query_exec_error_partial_outcome "q".data "SELECT 1".data "SELECT 1;".data
    "relation does not exist".data "t".data
    (fun _ => .err "relation does not exist".data) (by decide) rfl

/-- C6: when the extracted SQL executes successfully, `row_count` is the
number of rows and `data` is present; an empty result set gives
`row_count = 0` and `column_count = 0` with `data` still present, and a
non-empty result set gives `column_count` equal to the number of columns
with every row of `data` having exactly that many values. -/
theorem query_exec_success_counts (uq out q ts : Str)
    (exec : Str → ExecResult) (df : DataFrame)
    (hq : extractSql out = some q) (he : exec q = .ok df)
    (hrows : ∀ r ∈ df.rows, r.length = df.cols.length) :
    (query uq (.ok out) exec ts).data = some df ∧
    (query uq (.ok out) exec ts).row_count = some df.rows.length ∧
    (df.rows = [] →
      (query uq (.ok out) exec ts).row_count = some 0 ∧
      (query uq (.ok out) exec ts).column_count = some 0) ∧
    (df.rows ≠ [] →
      (query uq (.ok out) exec ts).column_count = some df.cols.length ∧
      ∀ r, (query uq (.ok out) exec ts).data = some df → r ∈ df.rows →
        r.length = df.cols.length) := by
  rw [query_ok_exec uq out q ts exec df hq he]
  refine ⟨rfl, rfl, ?_, ?_⟩
  · intro hr
    constructor
    · simp [hr]
    · simp [DataFrame.isEmptyDf, hr]
  · intro hr
    constructor
    · cases hcols : df.cols with
      | nil =>
        simp [DataFrame.isEmptyDf, hcols]
      | cons c cs =>
        have : df.rows.isEmpty = false := by
          simpa [List.isEmpty_iff] using hr
        simp [DataFrame.isEmptyDf, this, hcols]
    · intro r _ hrm
      exact hrows r hrm

/-- Witness for C6 at a concrete input: `SELECT 1` whose execution
returns one row and one column. -/
theorem query_exec_success_counts_witness :
    (query "q".data (.ok "SELECT 1".data)
        (fun _ => .ok ⟨["c".data], [["1".data]]⟩) "t".data).data
      = some ⟨["c".data], [["1".data]]⟩ ∧
    (query "q".data (.ok "SELECT 1".data)
        (fun _ => .ok ⟨["c".data], [["1".data]]⟩) "t".data).row_count = some 1 ∧
    (query "q".data (.ok "SELECT 1".data)
        (fun _ => .ok ⟨["c".data], [["1".data]]⟩) "t".data).column_count = some 1 := by
  have h := query_exec_success_counts "q".data "SELECT 1".data "SELECT 1;".data
    "t".data (fun _ => .ok ⟨["c".data], [["1".data]]⟩) ⟨["c".data], [["1".data]]⟩
    (by decide) rfl (by decide)
  obtain ⟨h1, h2, -, h4⟩ := h
  exact ⟨h1, h2, (h4 (by decide)).1⟩

/-- C5: for every input string the extraction result is either absent or
a non-empty string ending in the character `;`. -/
theorem extract_absent_or_semicolon_terminated (r : Str) :
    extractSql r = none ∨
    ∃ u, extractSql r = some u ∧ u ≠ [] ∧ endsWithChar ';' u = true := by
  cases h : extractSql r with
  | none => exact .inl rfl
  | some u =>
    have h' : finalizeSql (scanLines (splitLines r) false false []) = some u := h
    obtain ⟨_, h2, h3⟩ := finalize_shape h'
    exact .inr ⟨u, rfl, h2, h3⟩

/-- C9: extraction is a total function of the input string: it returns
either a string or absent (never an exception in the model, which is
total by construction), and the no-SQL-found case (no collected lines)
yields absent. -/
theorem extract_total_function (r : Str) :
    ((∃ u, extractSql r = some u) ∨ extractSql r = none) ∧
    (scanLines (splitLines r) false false [] = [] → extractSql r = none) := by
  constructor
  · cases h : extractSql r with
    | none => exact .inr rfl
    | some u => exact .inl ⟨u, rfl⟩
  · intro h
    unfold extractSql
    rw [h]
    rfl

/-- Witness for C9 at a concrete input: pure prose collects no lines
and extraction returns absent. -/
theorem extract_total_function_witness :
    extractSql "The database has three tables.".data = none :=
  (extract_total_function "The database has three tables.".data).2 (by decide)

end SqlAgent

namespace SqlAgent

theorem cons_append_head {α : Type} {a c : α} {ks t cs : List α}
    (h : (a :: ks) ++ t = c :: cs) : a = c := by
  simpa using congrArg List.head? h

theorem kw_head_char {ls : Str} (h : kwStartStripped ls = true) :
    ∃ c cs, ls = c :: cs ∧ (Char.toUpper c = 'S' ∨ Char.toUpper c = 'I' ∨
      Char.toUpper c = 'U' ∨ Char.toUpper c = 'D' ∨ Char.toUpper c = 'W' ∨
      Char.toUpper c = 'C' ∨ Char.toUpper c = 'A') := by
  unfold kwStartStripped sqlKeywords at h
  simp only [List.any_eq_true, List.mem_cons, List.not_mem_nil, or_false] at h
  obtain ⟨k, hk, hpre⟩ := h
  rw [List.isPrefixOf_iff_prefix] at hpre
  obtain ⟨t, ht⟩ := hpre
  cases ls with
  | nil =>
    exfalso
    rcases hk with rfl | rfl | rfl | rfl | rfl | rfl | rfl | rfl <;>
      simp [pyUpper] at ht
  | cons c cs =>
    refine ⟨c, cs, rfl, ?_⟩
    rw [show pyUpper (c :: cs) = Char.toUpper c :: pyUpper cs from rfl] at ht
    rcases hk with rfl | rfl | rfl | rfl | rfl | rfl | rfl | rfl
    · exact .inl (cons_append_head ht).symm
    · exact .inr (.inl (cons_append_head ht).symm)
    · exact .inr (.inr (.inl (cons_append_head ht).symm))
    · exact .inr (.inr (.inr (.inl (cons_append_head ht).symm)))
    · exact .inr (.inr (.inr (.inr (.inl (cons_append_head ht).symm))))
    · exact .inr (.inr (.inr (.inr (.inr (.inl (cons_append_head ht).symm)))))
    · exact .inr (.inr (.inr (.inr (.inr (.inr (cons_append_head ht).symm)))))
    · exact .inr (.inr (.inr (.inl (cons_append_head ht).symm)))

theorem fence_false_of_kw {ls : Str} (h : kwStartStripped ls = true) :
    fenceOpenStripped ls = false := by
  obtain ⟨c, cs, rfl, hc⟩ := kw_head_char h
  have hcb : (btick == c) = false := by
    apply beq_eq_false_iff_ne.mpr
    intro hbc
    rw [← hbc] at hc
    rcases hc with h1|h1|h1|h1|h1|h1|h1 <;> exact absurd h1 (by decide)
  unfold fenceOpenStripped
  rw [show ("```sql".data : Str) = btick :: "``sql".data from rfl,
    show ("```SQL".data : Str) = btick :: "``SQL".data from rfl,
    List.isPrefixOf_cons₂, List.isPrefixOf_cons₂, hcb]
  rfl

end SqlAgent

namespace SqlAgent

theorem scanLines_cons (l : Str) (rest : List Str) (inSql inCode : Bool)
    (acc : List Str) :
    scanLines (l :: rest) inSql inCode acc =
      match scanStep inSql inCode acc l with
      | .cont a b c => scanLines rest a b c
      | .stop c => c := rfl

/-- C10: bare-SQL mode entry is decided by character-prefix matching on
the trimmed, upper-cased line, so any line beginning with one of the
eight SQL leading keywords — including English words extending one,
like `Created ...` — enters bare-SQL mode and is appended to the
collected statement, after which scanning continues. -/
theorem bare_mode_entry_is_prefix_match (line : Str) (rest : List Str)
    (acc : List Str) (inSql : Bool) (h : isKeywordLine line = true) :
    scanLines (line :: rest) inSql false acc
      = scanLines rest true false (acc ++ [line]) := by
  have hk : kwStartStripped (pyStrip line) = true := h
  have hstep : scanStep inSql false acc line
      = .cont true false (acc ++ [line]) := by
    simp [scanStep, fence_false_of_kw hk, hk]
  rw [scanLines_cons, hstep]

/-- Witness for C10 at a concrete input: the English line
`Created the table` starts with the keyword `CREATE` as a character
prefix and is collected. -/
theorem bare_mode_entry_is_prefix_match_witness :
    isKeywordLine "Created the table".data = true ∧
    scanLines ["Created the table".data] false false []
      = scanLines [] true false ([] ++ ["Created the table".data]) :=
  ⟨by decide, bare_mode_entry_is_prefix_match "Created the table".data [] []
    false (by decide)⟩

/-- C7 counterexample: in bare-SQL mode the line `DROP IT NOW!`
satisfies every condition the claim lists (non-blank, none of the
punctuation characters, not alphanumeric once whitespace is removed,
does not end with `;`, does not start with `--`, no continuation
keyword), yet the scanner appends it and keeps collecting instead of
stopping, because the keyword-entry check (`DROP` prefix) has higher
priority than the prose-stop rule. -/
theorem bare_mode_prose_stop_counterexample :
    ((pyStrip "DROP IT NOW!".data).isEmpty = false ∧
     hasSqlPunct (pyStrip "DROP IT NOW!".data) = false ∧
     pyIsAlnum (stripSpaceTab (pyStrip "DROP IT NOW!".data)) = false ∧
     endsWithChar ';' (pyStrip "DROP IT NOW!".data) = false ∧
     "--".data.isPrefixOf (pyStrip "DROP IT NOW!".data) = false ∧
     hasContKw (pyStrip "DROP IT NOW!".data) = false) ∧
    scanStep true false ["SELECT 1".data] "DROP IT NOW!".data
      = .cont true false ["SELECT 1".data, "DROP IT NOW!".data] ∧
    extractSql "SELECT 1\nDROP IT NOW!\nFROM t;".data
      = some "SELECT 1\nDROP IT NOW!\nFROM t;".data := by
  refine ⟨⟨?_, ?_, ?_, ?_, ?_, ?_⟩, ?_, ?_⟩ <;> decide

/-- C7 (amended): in bare-SQL mode, a non-blank line containing none of
the characters `( ) , = < > ' "` whose whitespace-stripped content is
not alphanumeric, and that matches none of the higher-priority rules —
does not end with `;`, does not start with `--`, contains no SQL
continuation keyword, and moreover does not begin with a SQL leading
keyword and does not open a fence — stops collection at that line
without appending it. -/
theorem bare_mode_prose_stop (line : Str) (rest : List Str)
    (acc : List Str)
    (h1 : (pyStrip line).isEmpty = false)
    (h2 : hasSqlPunct (pyStrip line) = false)
    (h3 : pyIsAlnum (stripSpaceTab (pyStrip line)) = false)
    (h4 : endsWithChar ';' (pyStrip line) = false)
    (h5 : "--".data.isPrefixOf (pyStrip line) = false)
    (h6 : hasContKw (pyStrip line) = false)
    (h7 : kwStartStripped (pyStrip line) = false)
    (h8 : fenceOpenStripped (pyStrip line) = false) :
    scanLines (line :: rest) true false acc = acc := by
  have hstep : scanStep true false acc line = .stop acc := by
    simp [scanStep, h1, h2, h3, h4, h5, h6, h7, h8]
  rw [scanLines_cons, hstep]

/-- Witness for the amended C7 at a concrete input: the prose line
`Thus we are done!` ends bare-SQL collection without being appended. -/
theorem bare_mode_prose_stop_witness :
    scanLines ["Thus we are done!".data] true false ["SELECT 1".data]
      = ["SELECT 1".data] :=
  bare_mode_prose_stop "Thus we are done!".data [] ["SELECT 1".data]
    (by decide) (by decide) (by decide) (by decide) (by decide) (by decide)
    (by decide) (by decide)

end SqlAgent

namespace SqlAgent

theorem scan_skip_all (lines : List Str) (acc : List Str)
    (h : ∀ l ∈ lines, isFenceOpen l = false ∧ isKeywordLine l = false) :
    scanLines lines false false acc = acc := by
  induction lines with
  | nil => rfl
  | cons l rest ih =>
    obtain ⟨hf, hk⟩ := h l (by simp)
    have hstep : scanStep false false acc l = .cont false false acc := by
      simp only [isFenceOpen] at hf
      simp only [isKeywordLine] at hk
      simp [scanStep, hf, hk]
    rw [scanLines_cons, hstep]
    exact ih (fun x hx => h x (by simp [hx]))

/-- C8: an agent answer with no fenced sql opener and no line whose
trimmed, upper-cased form begins with a SQL leading keyword yields an
absent extraction result, and the query outcome has `success = true`,
`sql_query` absent, `data` absent and `row_count = 0`. -/
theorem no_sql_found_outcome (uq out ts : Str) (exec : Str → ExecResult)
    (h : ∀ l ∈ splitLines out, isFenceOpen l = false ∧ isKeywordLine l = false) :
    extractSql out = none ∧
    (query uq (.ok out) exec ts).success = true ∧
    (query uq (.ok out) exec ts).sql_query = none ∧
    (query uq (.ok out) exec ts).data = none ∧
    (query uq (.ok out) exec ts).row_count = some 0 := by
  have hnone : extractSql out = none := by
    unfold extractSql
    rw [scan_skip_all (splitLines out) [] h]
    rfl
  rw [query_ok_none uq out ts exec hnone]
  exact ⟨hnone, rfl, rfl, rfl, rfl⟩

/-- Witness for C8 at a concrete input: a pure-prose agent answer. -/
theorem no_sql_found_outcome_witness :
    extractSql "There are three tables.\nNo query was needed.".data = none ∧
    (query "q".data (.ok "There are three tables.\nNo query was needed.".data)
        (fun _ => .err "x".data) "t".data).success = true ∧
    (query "q".data (.ok "There are three tables.\nNo query was needed.".data)
        (fun _ => .err "x".data) "t".data).sql_query = none ∧
    (query "q".data (.ok "There are three tables.\nNo query was needed.".data)
        (fun _ => .err "x".data) "t".data).data = none ∧
    (query "q".data (.ok "There are three tables.\nNo query was needed.".data)
        (fun _ => .err "x".data) "t".data).row_count = some 0 :=
  no_sql_found_outcome "q".data
    "There are three tables.\nNo query was needed.".data "t".data
    (fun _ => .err "x".data) (by decide)

end SqlAgent

namespace SqlAgent

/-- C1 counterexample: the input contains a fenced code block tagged
sql whose content is `SELECT 1;`, but a bare keyword line `SELECT 0`
before the fence is also collected, so extraction does not return
exactly the fenced content (trimmed, semicolon-terminated), which
would be `SELECT 1;`. -/
theorem fenced_block_exact_counterexample :
    isFenceOpen "```sql".data = true ∧
    extractSql "SELECT 0\n```sql\nSELECT 1;\n```".data
      = some "SELECT 0\nSELECT 1;".data ∧
    some "SELECT 0\nSELECT 1;".data ≠ some "SELECT 1;".data := by
  refine ⟨?_, ?_, ?_⟩ <;> decide

theorem scan_skip_append (pre more : List Str) (acc : List Str)
    (h : ∀ l ∈ pre, isFenceOpen l = false ∧ isKeywordLine l = false) :
    scanLines (pre ++ more) false false acc
      = scanLines more false false acc := by
  induction pre with
  | nil => rfl
  | cons l ps ih =>
    obtain ⟨hf, hk⟩ := h l (by simp)
    have hstep : scanStep false false acc l = .cont false false acc := by
      simp only [isFenceOpen] at hf
      simp only [isKeywordLine] at hk
      simp [scanStep, hf, hk]
    rw [List.cons_append, scanLines_cons, hstep]
    exact ih (fun x hx => h x (by simp [hx]))

theorem scan_code_append (content : List Str) (more : List Str)
    (acc : List Str) (inSql : Bool)
    (h : ∀ l ∈ content, isFenceOpen l = false ∧ isFenceClose l = false) :
    scanLines (content ++ more) inSql true acc
      = scanLines more inSql true (acc ++ content) := by
  induction content generalizing acc with
  | nil => simp
  | cons l cs ih =>
    obtain ⟨hf, hc⟩ := h l (by simp)
    have hstep : scanStep inSql true acc l = .cont inSql true (acc ++ [l]) := by
      simp only [isFenceOpen] at hf
      simp only [isFenceClose] at hc
      simp [scanStep, hf, hc]
    rw [List.cons_append, scanLines_cons, hstep]
    show scanLines (cs ++ more) inSql true (acc ++ [l])
      = scanLines more inSql true (acc ++ l :: cs)
    rw [ih (acc ++ [l]) (fun x hx => h x (by simp [hx]))]
    simp

theorem foldl_strip_no_prefix (ps : List Str) (s : Str)
    (h : ∀ p ∈ ps, p.isPrefixOf s = false) :
    ps.foldl
      (fun acc p => if p.isPrefixOf acc then pyStrip (acc.drop p.length)
        else acc) s = s := by
  induction ps with
  | nil => rfl
  | cons p ps ih =>
    simp only [List.foldl_cons]
    rw [if_neg (by simp [h p (by simp)])]
    exact ih (fun q hq => h q (List.mem_cons_of_mem _ hq))

theorem stripPrefixes_eq_self {s : Str}
    (h : ∀ p ∈ narrativePrefixes, p.isPrefixOf s = false) :
    stripPrefixes s = s :=
  foldl_strip_no_prefix narrativePrefixes s h

/-- C1 (amended): for an input whose lines are `pre`, a fence opener, a
fenced `content`, the closing fence marker and arbitrary trailing
lines, where no `pre` line opens a fence or enters bare-SQL mode, no
`content` line opens or closes a fence, and the trimmed content does
not begin with a narrative prefix, extraction returns exactly the
fenced content, trimmed and semicolon-terminated (absent when blank);
everything after the closing fence is ignored. -/
theorem fenced_block_extraction (pre content rest : List Str)
    (opener closer : Str)
    (hop : isFenceOpen opener = true)
    (hcl : isFenceClose closer = true)
    (hpre : ∀ l ∈ pre, isFenceOpen l = false ∧ isKeywordLine l = false)
    (hcont : ∀ l ∈ content, isFenceOpen l = false ∧ isFenceClose l = false)
    (hnl : ∀ l ∈ pre ++ (opener :: (content ++ (closer :: rest))), '\n' ∉ l)
    (hnp : ∀ p ∈ narrativePrefixes,
      p.isPrefixOf (pyStrip (List.intercalate ['\n'] content)) = false) :
    extractSql
        (List.intercalate ['\n'] (pre ++ (opener :: (content ++ (closer :: rest)))))
      = someIfNonempty (ensureSemi (pyStrip (List.intercalate ['\n'] content))) := by
  have hsplit : splitLines
      (List.intercalate ['\n'] (pre ++ (opener :: (content ++ (closer :: rest)))))
      = pre ++ (opener :: (content ++ (closer :: rest))) := by
    unfold splitLines
    exact List.splitOn_intercalate _ '\n' hnl (by simp)
  have hopstep : ∀ acc, scanStep false false acc opener = .cont false true acc := by
    intro acc
    have hop' : fenceOpenStripped (pyStrip opener) = true := hop
    simp [scanStep, hop']
  have hcleq : pyStrip closer = "```".data := by
    have hcl' : (pyStrip closer == "```".data) = true := hcl
    simpa using hcl'
  have hclstep : ∀ acc, scanStep false true acc closer = .stop acc := by
    intro acc
    have h1 : fenceOpenStripped "```".data = false := by decide
    simp [scanStep, hcleq, h1]
  have hscan : scanLines
      (pre ++ (opener :: (content ++ (closer :: rest)))) false false []
      = content := by
    rw [scan_skip_append pre (opener :: (content ++ (closer :: rest))) [] hpre,
      scanLines_cons, hopstep []]
    show scanLines (content ++ (closer :: rest)) false true [] = content
    rw [scan_code_append content (closer :: rest) [] false hcont,
      List.nil_append, scanLines_cons, hclstep content]
  unfold extractSql
  rw [hsplit, hscan]
  unfold finalizeSql
  by_cases hce : content.isEmpty
  · rw [if_pos hce]
    have hc0 : content = [] := by simpa [List.isEmpty_iff] using hce
    subst hc0
    decide
  · rw [if_neg hce, stripPrefixes_eq_self hnp]

/-- Witness for the amended C1 at a concrete input: prose before the
fence, `SELECT 42` inside it, prose after the closing fence. -/
theorem fenced_block_extraction_witness :
    extractSql "The answer follows.\n```sql\nSELECT 42\n```\nDone.".data
      = some "SELECT 42;".data := by
  have h := fenced_block_extraction ["The answer follows.".data]
    ["SELECT 42".data] ["Done.".data] "```sql".data "```".data
    (by decide) (by decide) (by decide) (by decide) (by decide) (by decide)
  have e1 : List.intercalate ['\n']
      (["The answer follows.".data] ++ ("```sql".data ::
        (["SELECT 42".data] ++ ("```".data :: ["Done.".data]))))
      = "The answer follows.\n```sql\nSELECT 42\n```\nDone.".data := by decide
  rw [e1] at h
  rw [h]
  decide

end SqlAgent

namespace SqlAgent

theorem intercalate_singleton (sep : Str) (l : Str) :
    List.intercalate sep [l] = l := by
  simp [List.intercalate]

theorem intercalate_cons₂ (sep : Str) (a b : Str) (t : List Str) :
    List.intercalate sep (a :: b :: t)
      = a ++ (sep ++ List.intercalate sep (b :: t)) := by
  simp [List.intercalate]

theorem intercalate_concat₂ (sep : Str) (L : List Str) (lastl : Str)
    (h : L ≠ []) :
    List.intercalate sep (L ++ [lastl])
      = List.intercalate sep L ++ sep ++ lastl := by
  induction L with
  | nil => exact absurd rfl h
  | cons a L' ih =>
    cases L' with
    | nil =>
      rw [show ([a] ++ [lastl] : List Str) = a :: [lastl] from rfl,
        intercalate_cons₂, intercalate_singleton, intercalate_singleton]
      simp [List.append_assoc]
    | cons b t =>
      rw [show ((a :: b :: t) ++ [lastl] : List Str)
          = a :: (b :: (t ++ [lastl])) from rfl, intercalate_cons₂]
      rw [show (b :: (t ++ [lastl]) : List Str) = (b :: t) ++ [lastl] from rfl,
        ih (by simp), intercalate_cons₂]
      simp [List.append_assoc]

theorem pyStrip_endsWith_semi {l : Str} (h : l.getLast? = some ';') :
    endsWithChar ';' (pyStrip l) = true := by
  have hd : l.dropWhile isPyWs ≠ [] := by
    intro h0
    have hall := List.dropWhile_eq_nil_iff.mp h0
    have hmem : ';' ∈ l := List.mem_of_getLast?_eq_some h
    exact absurd (hall ';' hmem) (by decide)
  have hlast : (l.dropWhile isPyWs).getLast? = some ';' := by
    conv at h => rw [← List.takeWhile_append_dropWhile (p := isPyWs) (l := l)]
    rw [List.getLast?_append] at h
    cases hl : (l.dropWhile isPyWs).getLast? with
    | none => exact absurd (List.getLast?_eq_none_iff.mp hl) hd
    | some c =>
      rw [hl] at h
      simpa using h
  unfold pyStrip
  rw [pyRstrip_eq_self_of_getLast hlast (by decide)]
  simp [endsWithChar, hlast]

theorem last_line_semi {first : Str} {ms : List Str} {lastl u : Str}
    (hjoin : List.intercalate ['\n'] (first :: (ms ++ [lastl])) = u)
    (hsemi : endsWithChar ';' u = true) :
    endsWithChar ';' (pyStrip lastl) = true := by
  have h2 : List.intercalate ['\n'] ((first :: ms) ++ [lastl]) = u := by
    rw [show ((first :: ms) ++ [lastl] : List Str)
        = first :: (ms ++ [lastl]) from rfl]
    exact hjoin
  rw [intercalate_concat₂ _ _ _ (by simp)] at h2
  have hu : u.getLast? = some ';' := by simpa [endsWithChar] using hsemi
  rw [← h2, List.getLast?_append] at hu
  cases hl : lastl.getLast? with
  | none =>
    rw [hl, Option.none_or, List.getLast?_append] at hu
    simp at hu
  | some c =>
    rw [hl] at hu
    simp only [Option.or_some, Option.some.injEq] at hu
    subst hu
    exact pyStrip_endsWith_semi hl

end SqlAgent

namespace SqlAgent

/-- A line on which bare-SQL collection appends and continues
(`in_code_block` false): it does not open a fence and either enters
via the keyword rule (line 248) or passes one of the continuation
rules b, c, e of lines 251-266 without ending in `;`. -/
def lineContinues (l : Str) : Bool :=
  !fenceOpenStripped (pyStrip l) &&
    (kwStartStripped (pyStrip l) ||
      (!endsWithChar ';' (pyStrip l) &&
        ((pyStrip l).isEmpty || "--".data.isPrefixOf (pyStrip l) ||
          hasContKw (pyStrip l) || hasSqlPunct (pyStrip l) ||
          pyIsAlnum (stripSpaceTab (pyStrip l)))))

theorem scanStep_continues {l : Str} (h : lineContinues l = true)
    (acc : List Str) :
    scanStep true false acc l = .cont true false (acc ++ [l]) := by
  unfold lineContinues at h
  simp only [Bool.and_eq_true, Bool.not_eq_true'] at h
  obtain ⟨hf, hrest⟩ := h
  by_cases hkw : kwStartStripped (pyStrip l) = true
  · simp [scanStep, hf, hkw]
  · have hkw' : kwStartStripped (pyStrip l) = false := by
      cases h0 : kwStartStripped (pyStrip l)
      · rfl
      · exact absurd h0 hkw
    rw [hkw', Bool.false_or] at hrest
    simp only [Bool.and_eq_true, Bool.not_eq_true', Bool.or_eq_true] at hrest
    obtain ⟨hsemi, hbare⟩ := hrest
    rcases hbare with (((hb | hb) | hb) | hb) | hb <;>
      simp [scanStep, hf, hkw', hsemi, hb]

theorem scanStep_last {l : Str}
    (hsemi : endsWithChar ';' (pyStrip l) = true)
    (hf : fenceOpenStripped (pyStrip l) = false) (acc : List Str) :
    scanStep true false acc l = .cont true false (acc ++ [l]) ∨
    scanStep true false acc l = .stop (acc ++ [l]) := by
  by_cases hkw : kwStartStripped (pyStrip l)
  · left; simp [scanStep, hf, hkw]
  · right; simp [scanStep, hf, hkw, hsemi]

theorem scan_collect_all : ∀ (mid : List Str) (lastl : Str) (acc : List Str),
    (∀ l ∈ mid, lineContinues l = true) →
    endsWithChar ';' (pyStrip lastl) = true →
    fenceOpenStripped (pyStrip lastl) = false →
    scanLines (mid ++ [lastl]) true false acc = acc ++ (mid ++ [lastl]) := by
  intro mid
  induction mid with
  | nil =>
    intro lastl acc _ hlast hlf
    rw [List.nil_append]
    rcases scanStep_last hlast hlf acc with h | h
    · rw [scanLines_cons, h]
      rfl
    · rw [scanLines_cons, h]
  | cons m ms ih =>
    intro lastl acc hmid hlast hlf
    have hm := hmid m (by simp)
    rw [List.cons_append, scanLines_cons, scanStep_continues hm acc]
    show scanLines (ms ++ [lastl]) true false (acc ++ [m])
      = acc ++ (m :: (ms ++ [lastl]))
    rw [ih lastl (acc ++ [m]) (fun x hx => hmid x (by simp [hx])) hlast hlf]
    simp

theorem kw_prefix_incompatible :
    ∀ k ∈ sqlKeywords, ∀ p ∈ narrativePrefixes,
      ¬(k <+: pyUpper p) ∧ ¬(pyUpper p <+: k) := by decide

theorem no_narrative_prefix_of_kw {u : Str}
    (h : ∃ k ∈ sqlKeywords, k <+: pyUpper u) :
    ∀ p ∈ narrativePrefixes, p.isPrefixOf u = false := by
  intro p hp
  obtain ⟨k, hk, hku⟩ := h
  cases hb : p.isPrefixOf u with
  | false => rfl
  | true =>
    exfalso
    have hpu : p <+: u := List.isPrefixOf_iff_prefix.mp hb
    have hpu' : pyUpper p <+: pyUpper u := List.IsPrefix.map _ hpu
    rcases List.prefix_or_prefix_of_prefix hku hpu' with hc | hc
    · exact absurd hc (kw_prefix_incompatible k hk p hp).1
    · exact absurd hc (kw_prefix_incompatible k hk p hp).2

end SqlAgent

namespace SqlAgent

/-- C4 counterexample: extraction of a fenced block whose content has a
prose-looking middle line yields a result that starts with `SELECT`,
yet re-extracting that result stops at the middle line and returns a
different (shorter) text, so extraction is not idempotent on its own
output as claimed. -/
theorem extract_idempotent_counterexample :
    extractSql "```sql\nSELECT x\nhello!\nFROM t;\n```".data
      = some "SELECT x\nhello!\nFROM t;".data ∧
    kwStartStripped (pyStrip "SELECT x\nhello!\nFROM t;".data) = true ∧
    extractSql "SELECT x\nhello!\nFROM t;".data = some "SELECT x;".data ∧
    some "SELECT x;".data ≠ some "SELECT x\nhello!\nFROM t;".data := by
  refine ⟨?_, ?_, ?_, ?_⟩ <;> decide

/-- C4 (amended): extraction is idempotent on its own output provided
every line of the output re-collects: the first line begins (trimmed,
upper-cased) with a SQL leading keyword, every interior line satisfies
a bare-mode continuation rule (keyword entry, blank, comment,
continuation keyword, SQL punctuation, or alphanumeric content) without
ending in `;`, and no line after the first opens a fence.  Under these
conditions `extract (extract s) = extract s`. -/
theorem extract_idempotent (s u first : Str) (rest : List Str)
    (hu : extractSql s = some u)
    (hL : splitLines u = first :: rest)
    (hkw : kwStartStripped (pyStrip first) = true)
    (hmid : ∀ l ∈ rest.dropLast, lineContinues l = true)
    (hrf : ∀ l ∈ rest, fenceOpenStripped (pyStrip l) = false) :
    extractSql u = some u := by
  have hu' : finalizeSql (scanLines (splitLines s) false false []) = some u := hu
  obtain ⟨hstr, hne, hsemi⟩ := finalize_shape hu'
  have hL' : u.splitOn '\n' = first :: rest := hL
  have hjoin : List.intercalate ['\n'] (first :: rest) = u := by
    rw [← hL']
    exact List.intercalate_splitOn u '\n'
  have hff : fenceOpenStripped (pyStrip first) = false := fence_false_of_kw hkw
  have hstep1 : ∀ acc : List Str,
      scanStep false false acc first = .cont true false (acc ++ [first]) := by
    intro acc
    simp [scanStep, hff, hkw]
  have hscan : scanLines (first :: rest) false false [] = first :: rest := by
    rcases List.eq_nil_or_concat' rest with rfl | ⟨ms, lastl, rfl⟩
    · rw [scanLines_cons, hstep1 []]
      rfl
    · have hlast : endsWithChar ';' (pyStrip lastl) = true :=
        last_line_semi hjoin hsemi
      have hlf : fenceOpenStripped (pyStrip lastl) = false :=
        hrf lastl (by simp)
      have hmid' : ∀ l ∈ ms, lineContinues l = true := by
        intro x hx
        apply hmid
        rw [List.dropLast_concat]
        exact hx
      rw [scanLines_cons, hstep1 []]
      show scanLines (ms ++ [lastl]) true false [first]
        = first :: (ms ++ [lastl])
      rw [scan_collect_all ms lastl [first] hmid' hlast hlf]
      rfl
  have hkpre : ∃ k ∈ sqlKeywords, k <+: pyUpper u := by
    have hfne : first ≠ [] := by
      intro h0
      rw [h0] at hkw
      exact absurd hkw (by decide)
    have hfu : first <+: u := by
      rcases rest with _ | ⟨r, rs⟩
      · rw [← hjoin, intercalate_singleton]
      · rw [← hjoin, intercalate_cons₂]
        exact ⟨_, rfl⟩
    obtain ⟨hdw, _⟩ := stripped_parts hstr
    have hdf : first.dropWhile isPyWs = first := by
      cases hfst : first with
      | nil => simp
      | cons c cs =>
        have hx : isPyWs c = false := by
          obtain ⟨t, ht⟩ := hfu
          rw [hfst] at ht
          rw [← ht] at hdw
          cases hc : isPyWs c
          · rfl
          · exfalso
            rw [show ((c :: cs) ++ t : Str) = c :: (cs ++ t) from rfl,
              List.dropWhile_cons_of_pos hc] at hdw
            have hle : ((cs ++ t).dropWhile isPyWs).length ≤ (cs ++ t).length :=
              (List.dropWhile_suffix _).length_le
            have hlen := congrArg List.length hdw
            rw [List.length_cons] at hlen
            omega
        exact List.dropWhile_cons_of_neg (by simp [hx])
    have hkw2 : kwStartStripped (pyStrip first) = true := hkw
    unfold kwStartStripped at hkw2
    simp only [List.any_eq_true] at hkw2
    obtain ⟨k, hk, hkp⟩ := hkw2
    refine ⟨k, hk, ?_⟩
    have h1 : k <+: pyUpper (pyStrip first) := List.isPrefixOf_iff_prefix.mp hkp
    have h2 : pyStrip first <+: first := by
      unfold pyStrip
      rw [hdf]
      exact pyRstrip_prefix_self first
    have h3 : pyUpper (pyStrip first) <+: pyUpper u :=
      List.IsPrefix.map _ (h2.trans hfu)
    exact h1.trans h3
  have hnp := no_narrative_prefix_of_kw hkpre
  unfold extractSql
  rw [hL, hscan]
  unfold finalizeSql
  rw [if_neg (by simp), hjoin, hstr, stripPrefixes_eq_self hnp]
  obtain ⟨_, hrstr⟩ := stripped_parts hstr
  unfold ensureSemi
  rw [hrstr, hsemi]
  simp [someIfNonempty, List.isEmpty_iff, hne]

/-- Witness for the amended C4 at a concrete input: extraction of
`SELECT a\nFROM t` yields `SELECT a\nFROM t;`, and extraction of that
output returns it unchanged. -/
theorem extract_idempotent_witness :
    extractSql "SELECT a\nFROM t;".data = some "SELECT a\nFROM t;".data :=
  extract_idempotent "SELECT a\nFROM t".data "SELECT a\nFROM t;".data
    "SELECT a".data ["FROM t;".data] (by decide) (by decide) (by decide)
    (by decide) (by decide)

end SqlAgent
